import Mathlib

/-!
Shallow embedding of the client-side core of the digital-surveyor frontend:
postcode validation and auto-formatting (PostcodeSearch.tsx), session token
expiry (utils/token.ts), the assessment client with its authenticated to
anonymous fallback (hooks/useAssessment.ts), vehicle envelope projection
(Map/VehicleOverlay.tsx), width colour styling (Map/WidthMarkers), the
selection state machine (routes/_layout/assessments.tsx, AssessmentPanel.tsx)
and the map mount workaround (Map/MapContainer.tsx).

Strings are modelled as lists of characters; JavaScript numbers are modelled
as rationals (the constants involved are exactly representable, so IEEE
comparisons agree with rational comparisons); the browser built-ins `atob`
and `JSON.parse` are abstracted as an explicit decoder parameter.
-/

namespace DigitalSurveyor

/-! ### Character classes used by `POSTCODE_RE` and by JS whitespace handling -/

/-- ASCII upper-case letter, the `A-Z` range of the regex. -/
def isUpperLetter (c : Char) : Bool := 65 ≤ c.toNat && c.toNat ≤ 90

/-- ASCII lower-case letter, the `a-z` range of the regex. -/
def isLowerLetter (c : Char) : Bool := 97 ≤ c.toNat && c.toNat ≤ 122

/-- The regex character class `[A-Za-z]`. -/
def isLetterAZ (c : Char) : Bool := isUpperLetter c || isLowerLetter c

/-- The regex character class `\d`. -/
def isDigit09 (c : Char) : Bool := 48 ≤ c.toNat && c.toNat ≤ 57

/-- The regex character class `[A-Za-z\d]`. -/
def isAlnum (c : Char) : Bool := isLetterAZ c || isDigit09 c

/-- JavaScript whitespace (`\s` in a regex, and the set trimmed by
`String.prototype.trim`): ASCII whitespace plus the Unicode space
separators, NBSP, the line separators and the BOM. -/
def isJsWs (c : Char) : Bool :=
  c.toNat = 32 || c.toNat = 9 || c.toNat = 10 || c.toNat = 11 || c.toNat = 12 ||
  c.toNat = 13 || c.toNat = 160 || c.toNat = 0x1680 ||
  (0x2000 ≤ c.toNat && c.toNat ≤ 0x200A) ||
  c.toNat = 0x2028 || c.toNat = 0x2029 || c.toNat = 0x202F ||
  c.toNat = 0x205F || c.toNat = 0x3000 || c.toNat = 0xFEFF

/-- `String.prototype.toUpperCase` restricted to its ASCII action (the
postcode pattern only accepts ASCII letters and digits). -/
def toUpperChar (c : Char) : Char :=
  if isLowerLetter c then Char.ofNat (c.toNat - 32) else c

/-- `String.prototype.trim`: drop leading and trailing JS whitespace. -/
def jsTrim (l : List Char) : List Char :=
  ((l.dropWhile isJsWs).reverse.dropWhile isJsWs).reverse

/-! ### `POSTCODE_RE = /^[A-Za-z]{1,2}\d[A-Za-z\d]?\s*\d[A-Za-z]{2}$/`
(PostcodeSearch.tsx).  The regex is anchored, so a match is a decomposition
of the whole string.  `\s*` is deterministic here because the character
after it (`\d`) is never whitespace. -/

/-- The suffix `\s*\d[A-Za-z]{2}$` of the postcode regex. -/
def inwardTest (l : List Char) : Bool :=
  match l.dropWhile isJsWs with
  | [d, a, b] => isDigit09 d && isLetterAZ a && isLetterAZ b
  | _ => false

/-- The suffix `[A-Za-z\d]?\s*\d[A-Za-z]{2}$` of the postcode regex:
the optional character is either absent or present. -/
def optTailTest (l : List Char) : Bool :=
  inwardTest l ||
    match l with
    | c :: t => isAlnum c && inwardTest t
    | [] => false

/-- Full-string test of `POSTCODE_RE`: one or two leading letters, a digit,
an optional letter-or-digit, optional whitespace, a digit, two letters. -/
def POSTCODE_RE (l : List Char) : Bool :=
  match l with
  | a :: rest =>
    isLetterAZ a &&
      ((match rest with
        | d :: t => isDigit09 d && optTailTest t
        | [] => false) ||
       (match rest with
        | b :: d :: t => isLetterAZ b && isDigit09 d && optTailTest t
        | _ => false))
  | [] => false

/-! ### `formatPostcode` and `handleSubmit` (PostcodeSearch.tsx) -/

/-- `formatPostcode`: strip all whitespace (`value.replace(/\s+/g, "")`),
upper-case, and when longer than 3 characters insert a single space before
the last three characters. -/
def formatPostcode (l : List Char) : List Char :=
  let clean := (l.filter (fun c => !isJsWs c)).map toUpperChar
  if clean.length > 3 then
    clean.take (clean.length - 3) ++ ' ' :: clean.drop (clean.length - 3)
  else clean

/-- The two local validation failures of `handleSubmit`. -/
inductive PostcodeError where
  | empty
  | malformed
deriving DecidableEq

/-- `handleSubmit` of PostcodeSearch.tsx, as a function of the controlled
input state: trim, reject the empty result, reject a regex mismatch,
otherwise pass the trimmed string to `onSubmit`. -/
def handleSubmit (state : List Char) : Except PostcodeError (List Char) :=
  let trimmed := jsTrim state
  if trimmed.isEmpty then .error .empty
  else if !POSTCODE_RE trimmed then .error .malformed
  else .ok trimmed

/-- The canonical form named by the specification: the same characters
upper-cased with the whitespace replaced by exactly one internal space
before the inward code (the last three characters). -/
def canonicalForm (l : List Char) : List Char :=
  let s := (l.filter (fun c => !isJsWs c)).map toUpperChar
  s.take (s.length - 3) ++ ' ' :: s.drop (s.length - 3)

/-- Modelled from the spec: the auto-formatting rule in its own words,
"strip all whitespace, uppercase, and if the resulting length is greater
than 3, insert a single space 3 characters from the end". -/
def specAutoFormat (l : List Char) : List Char :=
  let stripped := l.filter (fun c => !isJsWs c)
  let upper := stripped.map toUpperChar
  if upper.length > 3 then
    upper.take (upper.length - 3) ++ [' '] ++ upper.drop (upper.length - 3)
  else upper

/-! ### Character-class lemmas -/

lemma isJsWs_eq_false_of_isDigit09 {c : Char} (h : isDigit09 c = true) :
    isJsWs c = false := by
  simp only [isDigit09, Bool.and_eq_true, decide_eq_true_eq] at h
  simp only [isJsWs, Bool.or_eq_false_iff, Bool.and_eq_false_iff,
    decide_eq_false_iff_not]
  omega

lemma isJsWs_eq_false_of_isLetterAZ {c : Char} (h : isLetterAZ c = true) :
    isJsWs c = false := by
  simp only [isLetterAZ, isUpperLetter, isLowerLetter, Bool.or_eq_true,
    Bool.and_eq_true, decide_eq_true_eq] at h
  simp only [isJsWs, Bool.or_eq_false_iff, Bool.and_eq_false_iff,
    decide_eq_false_iff_not]
  omega

lemma isJsWs_eq_false_of_isAlnum {c : Char} (h : isAlnum c = true) :
    isJsWs c = false := by
  rcases Bool.or_eq_true_iff.mp h with h' | h'
  · exact isJsWs_eq_false_of_isLetterAZ h'
  · exact isJsWs_eq_false_of_isDigit09 h'

lemma toNat_toUpperChar_of_lower {c : Char} (h : isLowerLetter c = true) :
    (toUpperChar c).toNat = c.toNat - 32 := by
  simp only [isLowerLetter, Bool.and_eq_true, decide_eq_true_eq] at h
  have hval : (c.toNat - 32).isValidChar := by
    left
    omega
  simp only [toUpperChar, isLowerLetter, Bool.and_eq_true, decide_eq_true_eq,
    if_pos h]
  simp only [Char.ofNat, dif_pos hval]
  rfl

lemma toUpperChar_eq_self_of_not_lower {c : Char} (h : isLowerLetter c = false) :
    toUpperChar c = c := by
  simp [toUpperChar, h]

lemma isLetterAZ_toUpperChar {c : Char} (h : isLetterAZ c = true) :
    isLetterAZ (toUpperChar c) = true := by
  rcases Bool.or_eq_true_iff.mp h with h' | h'
  · have hl : isLowerLetter c = false := by
      simp only [isUpperLetter, Bool.and_eq_true, decide_eq_true_eq] at h'
      simp only [isLowerLetter, Bool.and_eq_false_iff, decide_eq_false_iff_not]
      omega
    rw [toUpperChar_eq_self_of_not_lower hl]
    exact h
  · have := toNat_toUpperChar_of_lower h'
    simp only [isLowerLetter, Bool.and_eq_true, decide_eq_true_eq] at h'
    simp only [isLetterAZ, isUpperLetter, isLowerLetter, Bool.or_eq_true,
      Bool.and_eq_true, decide_eq_true_eq]
    left
    omega

lemma isDigit09_toUpperChar {c : Char} (h : isDigit09 c = true) :
    toUpperChar c = c := by
  apply toUpperChar_eq_self_of_not_lower
  simp only [isDigit09, Bool.and_eq_true, decide_eq_true_eq] at h
  simp only [isLowerLetter, Bool.and_eq_false_iff, decide_eq_false_iff_not]
  omega

lemma isLowerLetter_toUpperChar (c : Char) :
    isLowerLetter (toUpperChar c) = false := by
  by_cases h : isLowerLetter c = true
  · have := toNat_toUpperChar_of_lower h
    simp only [isLowerLetter, Bool.and_eq_true, decide_eq_true_eq] at h
    simp only [isLowerLetter, Bool.and_eq_false_iff, decide_eq_false_iff_not]
    omega
  · rw [toUpperChar_eq_self_of_not_lower (by simpa using h)]
    simpa using h

lemma toUpperChar_idem (c : Char) : toUpperChar (toUpperChar c) = toUpperChar c :=
  toUpperChar_eq_self_of_not_lower (isLowerLetter_toUpperChar c)

lemma isJsWs_toUpperChar {c : Char} (h : isJsWs c = false) :
    isJsWs (toUpperChar c) = false := by
  by_cases hl : isLowerLetter c = true
  · have := toNat_toUpperChar_of_lower hl
    simp only [isLowerLetter, Bool.and_eq_true, decide_eq_true_eq] at hl
    simp only [isJsWs, Bool.or_eq_false_iff, Bool.and_eq_false_iff,
      decide_eq_false_iff_not]
    omega
  · rwa [toUpperChar_eq_self_of_not_lower (by simpa using hl)]

/-! ### Structural characterisation of `POSTCODE_RE` -/

/-- Shape of the characters consumed before `\s*` in a match:
`[A-Za-z]{1,2}\d[A-Za-z\d]?` read as a whole block of 2 to 4 characters. -/
def preShape : List Char → Bool
  | [a, d] => isLetterAZ a && isDigit09 d
  | [a, x, y] =>
    isLetterAZ a && ((isDigit09 x && isAlnum y) || (isLetterAZ x && isDigit09 y))
  | [a, b, d, o] => isLetterAZ a && isLetterAZ b && isDigit09 d && isAlnum o
  | _ => false

lemma dropWhile_ws_append {ws rest : List Char}
    (hws : ∀ c ∈ ws, isJsWs c = true) (hrest : rest.dropWhile isJsWs = rest) :
    (ws ++ rest).dropWhile isJsWs = rest := by
  induction ws with
  | nil => simpa using hrest
  | cons c t ih =>
    have hc : isJsWs c = true := hws c (List.mem_cons_self c t)
    simp only [List.cons_append, List.dropWhile_cons, hc, if_pos]
    exact ih (fun x hx => hws x (List.mem_cons_of_mem c hx))

lemma dropWhile_cons_of_neg {c : Char} {t : List Char} (h : isJsWs c = false) :
    (c :: t).dropWhile isJsWs = c :: t := by
  simp [List.dropWhile_cons, h]

lemma inwardTest_iff (l : List Char) :
    inwardTest l = true ↔
      ∃ ws d a b, l = ws ++ [d, a, b] ∧ (∀ c ∈ ws, isJsWs c = true) ∧
        isDigit09 d = true ∧ isLetterAZ a = true ∧ isLetterAZ b = true := by
  constructor
  · intro h
    unfold inwardTest at h
    split at h
    case _ d a b heq =>
      simp only [Bool.and_eq_true] at h
      refine ⟨l.takeWhile isJsWs, d, a, b, ?_, ?_, h.1.1, h.1.2, h.2⟩
      · conv_lhs => rw [← List.takeWhile_append_dropWhile (p := isJsWs) (l := l)]
        rw [heq]
      · intro c hc
        exact List.mem_takeWhile_imp hc
    case _ => exact absurd h (by simp)
  · rintro ⟨ws, d, a, b, rfl, hws, hd, ha, hb⟩
    unfold inwardTest
    rw [dropWhile_ws_append hws (dropWhile_cons_of_neg (isJsWs_eq_false_of_isDigit09 hd))]
    simp [hd, ha, hb]

lemma optTailTest_iff (t : List Char) :
    optTailTest t = true ↔
      ∃ opt ws d a b, t = opt ++ ws ++ [d, a, b] ∧
        (opt = [] ∨ ∃ c, opt = [c] ∧ isAlnum c = true) ∧
        (∀ c ∈ ws, isJsWs c = true) ∧ isDigit09 d = true ∧
        isLetterAZ a = true ∧ isLetterAZ b = true := by
  constructor
  · intro h
    unfold optTailTest at h
    rcases Bool.or_eq_true_iff.mp h with h' | h'
    · rcases (inwardTest_iff t).mp h' with ⟨ws, d, a, b, rfl, hws, hd, ha, hb⟩
      exact ⟨[], ws, d, a, b, rfl, Or.inl rfl, hws, hd, ha, hb⟩
    · cases t with
      | nil => exact absurd h' (by simp)
      | cons c t' =>
        simp only [Bool.and_eq_true] at h'
        rcases (inwardTest_iff t').mp h'.2 with ⟨ws, d, a, b, rfl, hws, hd, ha, hb⟩
        exact ⟨[c], ws, d, a, b, rfl, Or.inr ⟨c, rfl, h'.1⟩, hws, hd, ha, hb⟩
  · rintro ⟨opt, ws, d, a, b, rfl, hopt, hws, hd, ha, hb⟩
    have hin : inwardTest (ws ++ [d, a, b]) = true :=
      (inwardTest_iff _).mpr ⟨ws, d, a, b, rfl, hws, hd, ha, hb⟩
    unfold optTailTest
    rcases hopt with rfl | ⟨c, rfl, hc⟩
    · simp only [List.nil_append]
      exact Bool.or_eq_true_iff.mpr (Or.inl hin)
    · refine Bool.or_eq_true_iff.mpr (Or.inr ?_)
      simp [hc, hin]

lemma POSTCODE_RE_iff (l : List Char) :
    POSTCODE_RE l = true ↔
      ∃ pre ws d a b, l = pre ++ ws ++ [d, a, b] ∧ preShape pre = true ∧
        (∀ c ∈ ws, isJsWs c = true) ∧ isDigit09 d = true ∧
        isLetterAZ a = true ∧ isLetterAZ b = true := by
  constructor
  · intro h
    cases l with
    | nil => exact absurd h (by simp [POSTCODE_RE])
    | cons a0 rest =>
      simp only [POSTCODE_RE, Bool.and_eq_true, Bool.or_eq_true] at h
      obtain ⟨ha0, h1 | h2⟩ := h
      · cases rest with
        | nil => exact absurd h1 (by simp)
        | cons d0 t =>
          simp only [Bool.and_eq_true] at h1
          rcases (optTailTest_iff t).mp h1.2 with
            ⟨opt, ws, d, a, b, rfl, hopt, hws, hd, ha, hb⟩
          rcases hopt with rfl | ⟨c, rfl, hc⟩
          · refine ⟨[a0, d0], ws, d, a, b, by simp, ?_, hws, hd, ha, hb⟩
            simp [preShape, ha0, h1.1]
          · refine ⟨[a0, d0, c], ws, d, a, b, by simp, ?_, hws, hd, ha, hb⟩
            simp [preShape, ha0, h1.1, hc]
      · cases rest with
        | nil => exact absurd h2 (by simp)
        | cons b0 rest' =>
          cases rest' with
          | nil => exact absurd h2 (by simp)
          | cons d0 t =>
            simp only [Bool.and_eq_true] at h2
            rcases (optTailTest_iff t).mp h2.2 with
              ⟨opt, ws, d, a, b, rfl, hopt, hws, hd, ha, hb⟩
            rcases hopt with rfl | ⟨c, rfl, hc⟩
            · refine ⟨[a0, b0, d0], ws, d, a, b, by simp, ?_, hws, hd, ha, hb⟩
              simp [preShape, ha0, h2.1.1, h2.1.2]
            · refine ⟨[a0, b0, d0, c], ws, d, a, b, by simp, ?_, hws, hd, ha, hb⟩
              simp [preShape, ha0, h2.1.1, h2.1.2, hc]
  · rintro ⟨pre, ws, d, a, b, rfl, hpre, hws, hd, ha, hb⟩
    have hopt0 : optTailTest (ws ++ [d, a, b]) = true :=
      (optTailTest_iff _).mpr ⟨[], ws, d, a, b, by simp, Or.inl rfl, hws, hd, ha, hb⟩
    match pre, hpre with
    | [p1, p2], hpre =>
      simp only [preShape, Bool.and_eq_true] at hpre
      simp only [List.cons_append, List.nil_append, POSTCODE_RE, Bool.and_eq_true,
        Bool.or_eq_true]
      exact ⟨hpre.1, Or.inl (by simp [hpre.2, hopt0])⟩
    | [p1, p2, p3], hpre =>
      simp only [preShape, Bool.and_eq_true, Bool.or_eq_true] at hpre
      simp only [List.cons_append, List.nil_append, POSTCODE_RE, Bool.and_eq_true,
        Bool.or_eq_true]
      refine ⟨hpre.1, ?_⟩
      rcases hpre.2 with ⟨hp2, hp3⟩ | ⟨hp2, hp3⟩
      · refine Or.inl ⟨hp2, ?_⟩
        unfold optTailTest
        refine Bool.or_eq_true_iff.mpr (Or.inr ?_)
        simp [hp3, (inwardTest_iff _).mpr ⟨ws, d, a, b, rfl, hws, hd, ha, hb⟩]
      · exact Or.inr (by simp [hp2, hp3, hopt0])
    | [p1, p2, p3, p4], hpre =>
      simp only [preShape, Bool.and_eq_true] at hpre
      simp only [List.cons_append, List.nil_append, POSTCODE_RE, Bool.and_eq_true,
        Bool.or_eq_true]
      refine ⟨hpre.1.1.1, Or.inr ⟨⟨hpre.1.1.2, hpre.1.2⟩, ?_⟩⟩
      unfold optTailTest
      refine Bool.or_eq_true_iff.mpr (Or.inr ?_)
      simp [hpre.2, (inwardTest_iff _).mpr ⟨ws, d, a, b, rfl, hws, hd, ha, hb⟩]

lemma preShape_all_alnum {pre : List Char} (h : preShape pre = true) :
    ∀ c ∈ pre, isAlnum c = true := by
  match pre, h with
  | [p1, p2], h =>
    simp only [preShape, Bool.and_eq_true] at h
    intro c hc
    simp only [List.mem_cons, List.not_mem_nil, or_false] at hc
    rcases hc with rfl | rfl <;> simp [isAlnum, h.1, h.2]
  | [p1, p2, p3], h =>
    simp only [preShape, Bool.and_eq_true, Bool.or_eq_true] at h
    intro c hc
    simp only [List.mem_cons, List.not_mem_nil, or_false] at hc
    rcases hc with rfl | rfl | rfl <;> rcases h.2 with ⟨h1, h2⟩ | ⟨h1, h2⟩ <;>
      simp_all [isAlnum]
  | [p1, p2, p3, p4], h =>
    simp only [preShape, Bool.and_eq_true] at h
    intro c hc
    simp only [List.mem_cons, List.not_mem_nil, or_false] at hc
    rcases hc with rfl | rfl | rfl | rfl <;> simp_all [isAlnum]

lemma isAlnum_toUpperChar {c : Char} (h : isAlnum c = true) :
    isAlnum (toUpperChar c) = true := by
  rcases Bool.or_eq_true_iff.mp h with h' | h'
  · exact Bool.or_eq_true_iff.mpr (Or.inl (isLetterAZ_toUpperChar h'))
  · rw [isDigit09_toUpperChar h']
    exact h

lemma preShape_map_upper {pre : List Char} (h : preShape pre = true) :
    preShape (pre.map toUpperChar) = true := by
  match pre, h with
  | [p1, p2], h =>
    simp only [preShape, Bool.and_eq_true] at h
    simp only [List.map_cons, List.map_nil, preShape, Bool.and_eq_true]
    exact ⟨isLetterAZ_toUpperChar h.1, by rw [isDigit09_toUpperChar h.2]; exact h.2⟩
  | [p1, p2, p3], h =>
    simp only [preShape, Bool.and_eq_true, Bool.or_eq_true] at h
    simp only [List.map_cons, List.map_nil, preShape, Bool.and_eq_true,
      Bool.or_eq_true]
    refine ⟨isLetterAZ_toUpperChar h.1, ?_⟩
    rcases h.2 with ⟨h1, h2⟩ | ⟨h1, h2⟩
    · exact Or.inl ⟨by rw [isDigit09_toUpperChar h1]; exact h1, isAlnum_toUpperChar h2⟩
    · exact Or.inr ⟨isLetterAZ_toUpperChar h1, by rw [isDigit09_toUpperChar h2]; exact h2⟩
  | [p1, p2, p3, p4], h =>
    simp only [preShape, Bool.and_eq_true] at h
    simp only [List.map_cons, List.map_nil, preShape, Bool.and_eq_true]
    exact ⟨⟨⟨isLetterAZ_toUpperChar h.1.1.1, isLetterAZ_toUpperChar h.1.1.2⟩,
      by rw [isDigit09_toUpperChar h.1.2]; exact h.1.2⟩, isAlnum_toUpperChar h.2⟩

lemma preShape_length {pre : List Char} (h : preShape pre = true) :
    2 ≤ pre.length ∧ pre.length ≤ 4 := by
  match pre, h with
  | [p1, p2], _ => simp
  | [p1, p2, p3], _ => simp
  | [p1, p2, p3, p4], _ => simp

lemma POSTCODE_RE_length {l : List Char} (h : POSTCODE_RE l = true) :
    5 ≤ l.length := by
  rcases (POSTCODE_RE_iff l).mp h with ⟨pre, ws, d, a, b, rfl, hpre, -, -, -, -⟩
  have := (preShape_length hpre).1
  simp only [List.append_assoc, List.length_append, List.length_cons,
    List.length_nil]
  omega

/-! ### Trimming, stripping and formatting lemmas -/

lemma mem_of_getLast?_eq {l : List Char} {a : Char} (h : l.getLast? = some a) :
    a ∈ l := by
  obtain ⟨hne, heq⟩ := List.mem_getLast?_eq_getLast (Option.mem_def.mpr h)
  rw [heq]
  exact List.getLast_mem hne

lemma dropWhile_eq_self_of_head {l : List Char}
    (h : ∀ c, l.head? = some c → isJsWs c = false) :
    l.dropWhile isJsWs = l := by
  cases l with
  | nil => rfl
  | cons c t => exact dropWhile_cons_of_neg (h c rfl)

lemma jsTrim_eq_self {l : List Char}
    (h1 : ∀ c, l.head? = some c → isJsWs c = false)
    (h2 : ∀ c, l.getLast? = some c → isJsWs c = false) :
    jsTrim l = l := by
  unfold jsTrim
  rw [dropWhile_eq_self_of_head h1,
    dropWhile_eq_self_of_head (l := l.reverse)
      (fun c hc => h2 c (by rwa [List.head?_reverse] at hc)),
    List.reverse_reverse]

lemma jsTrim_eq_self_of_all {l : List Char} (h : ∀ c ∈ l, isJsWs c = false) :
    jsTrim l = l :=
  jsTrim_eq_self
    (fun c hc => h c (by cases l with
      | nil => exact absurd hc (by simp)
      | cons x t => exact (by simpa using hc) ▸ List.mem_cons_self x t))
    (fun c hc => h c (mem_of_getLast?_eq hc))

lemma clean_all_nonws (l : List Char) :
    ∀ c ∈ (l.filter (fun c => !isJsWs c)).map toUpperChar, isJsWs c = false := by
  intro c hc
  rcases List.mem_map.mp hc with ⟨x, hx, rfl⟩
  exact isJsWs_toUpperChar (by simpa using (List.mem_filter.mp hx).2)

lemma head_format_aux {clean : List Char} (h : clean.length > 3) :
    (clean.take (clean.length - 3) ++ ' ' :: clean.drop (clean.length - 3)).head?
      = clean.head? := by
  cases clean with
  | nil => simp at h
  | cons x t =>
    have h3 : (x :: t).length - 3 = (t.length - 3) + 1 := by
      simp only [List.length_cons] at h ⊢
      omega
    rw [h3, List.take_succ_cons, List.cons_append, List.head?_cons, List.head?_cons]

lemma getLast_format_aux {clean : List Char} (h : clean.length > 3) :
    ∃ c, (clean.take (clean.length - 3)
        ++ ' ' :: clean.drop (clean.length - 3)).getLast? = some c ∧ c ∈ clean := by
  have hdroplen : (clean.drop (clean.length - 3)).length = 3 := by
    simp only [List.length_drop]
    omega
  have hne2 : clean.drop (clean.length - 3) ≠ [] := by
    intro h0
    rw [h0] at hdroplen
    simp at hdroplen
  obtain ⟨c, hc⟩ : ∃ c, (clean.drop (clean.length - 3)).getLast? = some c :=
    ⟨(clean.drop (clean.length - 3)).getLast hne2,
      List.getLast?_eq_getLast_of_ne_nil hne2⟩
  refine ⟨c, ?_, List.drop_subset _ _ (mem_of_getLast?_eq hc)⟩
  rw [List.getLast?_append_of_ne_nil _
    (by simp : ' ' :: clean.drop (clean.length - 3) ≠ []),
    show ' ' :: clean.drop (clean.length - 3)
      = [' '] ++ clean.drop (clean.length - 3) from rfl,
    List.getLast?_append_of_ne_nil _ hne2]
  exact hc

lemma jsTrim_insert_space {clean : List Char}
    (hall : ∀ c ∈ clean, isJsWs c = false) (h : clean.length > 3) :
    jsTrim (clean.take (clean.length - 3) ++ ' ' :: clean.drop (clean.length - 3))
      = clean.take (clean.length - 3) ++ ' ' :: clean.drop (clean.length - 3) := by
  apply jsTrim_eq_self
  · intro c hcc
    rw [head_format_aux h] at hcc
    apply hall
    cases clean with
    | nil => exact absurd hcc (by simp)
    | cons x t =>
      have hcx : c = x := by
        rw [List.head?_cons] at hcc
        exact (Option.some_injective _ hcc).symm
      rw [hcx]
      exact List.mem_cons_self x t
  · intro c hcc
    obtain ⟨c0, hc0, hmem⟩ := @getLast_format_aux clean h
    rw [hc0] at hcc
    have hcx : c = c0 := (Option.some_injective _ hcc).symm
    rw [hcx]
    exact hall c0 hmem

lemma jsTrim_formatPostcode (l : List Char) :
    jsTrim (formatPostcode l) = formatPostcode l := by
  unfold formatPostcode
  by_cases hlen : ((l.filter (fun c => !isJsWs c)).map toUpperChar).length > 3
  · rw [if_pos hlen]
    exact jsTrim_insert_space (clean_all_nonws l) hlen
  · rw [if_neg hlen]
    exact jsTrim_eq_self_of_all (clean_all_nonws l)

lemma filter_jsTrim (l : List Char) :
    (jsTrim l).filter (fun c => !isJsWs c) = l.filter (fun c => !isJsWs c) := by
  have h1 : ∀ m : List Char,
      (m.dropWhile isJsWs).filter (fun c => !isJsWs c)
        = m.filter (fun c => !isJsWs c) := by
    intro m
    conv_rhs => rw [← List.takeWhile_append_dropWhile (p := isJsWs) (l := m)]
    rw [List.filter_append]
    have h0 : (m.takeWhile isJsWs).filter (fun c => !isJsWs c) = [] := by
      rw [List.filter_eq_nil_iff]
      intro a ha
      simp [List.mem_takeWhile_imp ha]
    rw [h0, List.nil_append]
  unfold jsTrim
  rw [List.filter_reverse, h1, ← List.filter_reverse, List.reverse_reverse, h1]

lemma filter_of_decomp {pre ws : List Char} {d a b : Char}
    (hpre : preShape pre = true) (hws : ∀ c ∈ ws, isJsWs c = true)
    (hd : isDigit09 d = true) (ha : isLetterAZ a = true) (hb : isLetterAZ b = true) :
    (pre ++ ws ++ [d, a, b]).filter (fun c => !isJsWs c) = pre ++ [d, a, b] := by
  rw [List.append_assoc, List.filter_append, List.filter_append]
  have h1 : pre.filter (fun c => !isJsWs c) = pre :=
    List.filter_eq_self.mpr fun c hc => by
      simp [isJsWs_eq_false_of_isAlnum (preShape_all_alnum hpre c hc)]
  have h2 : ws.filter (fun c => !isJsWs c) = [] := by
    rw [List.filter_eq_nil_iff]
    intro c hc
    simp [hws c hc]
  have h3 : [d, a, b].filter (fun c => !isJsWs c) = [d, a, b] := by
    simp [List.filter_cons, isJsWs_eq_false_of_isDigit09 hd,
      isJsWs_eq_false_of_isLetterAZ ha, isJsWs_eq_false_of_isLetterAZ hb]
  rw [h1, h2, h3, List.nil_append]

lemma canonicalForm_formatPostcode {l : List Char}
    (h : POSTCODE_RE (formatPostcode l) = true) :
    canonicalForm (formatPostcode l) = formatPostcode l := by
  have h5 := POSTCODE_RE_length h
  by_cases hlen : ((l.filter (fun c => !isJsWs c)).map toUpperChar).length > 3
  · have hformat : formatPostcode l
        = ((l.filter (fun c => !isJsWs c)).map toUpperChar).take
            (((l.filter (fun c => !isJsWs c)).map toUpperChar).length - 3)
          ++ ' ' :: ((l.filter (fun c => !isJsWs c)).map toUpperChar).drop
            (((l.filter (fun c => !isJsWs c)).map toUpperChar).length - 3) := by
      unfold formatPostcode
      rw [if_pos hlen]
    set clean := (l.filter (fun c => !isJsWs c)).map toUpperChar with hcdef
    have hsub : (formatPostcode l).filter (fun c => !isJsWs c) = clean := by
      rw [hformat, List.filter_append,
        List.filter_cons_of_neg (by simp [isJsWs]),
        List.filter_eq_self.mpr (fun c hc => by
          simp [clean_all_nonws l c (List.take_subset _ _ hc)]),
        List.filter_eq_self.mpr (fun c hc => by
          simp [clean_all_nonws l c (List.drop_subset _ _ hc)]),
        List.take_append_drop]
    have hupper : clean.map toUpperChar = clean := by
      rw [hcdef, List.map_map]
      exact List.map_congr_left fun c _ => toUpperChar_idem c
    unfold canonicalForm
    rw [hsub, hupper, ← hformat]
  · exfalso
    have hformat : formatPostcode l = (l.filter (fun c => !isJsWs c)).map toUpperChar := by
      unfold formatPostcode
      rw [if_neg hlen]
    rw [hformat] at h5
    omega

/-! ### Claim theorems for postcode validation and formatting -/

/-- C2: in the assessment search component, submission validates the
controlled input state (always an image of `formatPostcode`): an
empty trimmed state fails with the "empty" error, a trimmed state not
matching `POSTCODE_RE` fails with the "malformed" error, and a matching
state is passed onward unchanged, which equals that same string
upper-cased with exactly one internal space (its canonical form). -/
theorem handleSubmit_validation_spec :
    (∀ state : List Char, jsTrim state = [] → handleSubmit state = .error .empty) ∧
    (∀ state : List Char, jsTrim state ≠ [] → POSTCODE_RE (jsTrim state) = false →
      handleSubmit state = .error .malformed) ∧
    (∀ raw : List Char, POSTCODE_RE (jsTrim (formatPostcode raw)) = true →
      handleSubmit (formatPostcode raw)
        = .ok (canonicalForm (jsTrim (formatPostcode raw)))) := by
  refine ⟨?_, ?_, ?_⟩
  · intro state h
    unfold handleSubmit
    rw [if_pos (by simp [List.isEmpty_iff, h])]
  · intro state h1 h2
    unfold handleSubmit
    rw [if_neg (by simpa [List.isEmpty_iff] using h1), if_pos (by simp [h2])]
  · intro raw h
    have htrim := jsTrim_formatPostcode raw
    rw [htrim] at h ⊢
    have hne : formatPostcode raw ≠ [] := by
      intro h0
      rw [h0] at h
      exact absurd h (by simp [POSTCODE_RE])
    unfold handleSubmit
    rw [htrim, if_neg (by simpa [List.isEmpty_iff] using hne),
      if_neg (by simp [h]), canonicalForm_formatPostcode h]

/-- Witness for C2 at concrete inputs: a whitespace-only state, a
malformed state, and the typed input "bn11ab". -/
theorem handleSubmit_validation_spec_witness :
    handleSubmit [' ', ' '] = .error .empty ∧
    handleSubmit ['B', 'N', '1'] = .error .malformed ∧
    handleSubmit (formatPostcode ['b', 'n', '1', '1', 'a', 'b'])
      = .ok (canonicalForm (jsTrim (formatPostcode ['b', 'n', '1', '1', 'a', 'b']))) :=
  ⟨handleSubmit_validation_spec.1 [' ', ' '] (by decide),
   handleSubmit_validation_spec.2.1 ['B', 'N', '1'] (by decide) (by decide),
   handleSubmit_validation_spec.2.2 ['b', 'n', '1', '1', 'a', 'b'] (by decide)⟩

/-- C8: `formatPostcode` is exactly the spec's rule (strip all whitespace,
upper-case, insert one space three characters from the end when longer than
three characters), and formatting never rejects a convertible input: any
string accepted by `POSTCODE_RE` after trimming is still accepted after
auto-formatting. -/
theorem formatPostcode_spec_and_preserves_match :
    (∀ l : List Char, formatPostcode l = specAutoFormat l) ∧
    (∀ l : List Char, POSTCODE_RE (jsTrim l) = true →
      POSTCODE_RE (formatPostcode l) = true) := by
  constructor
  · intro l
    simp only [formatPostcode, specAutoFormat]
    by_cases h : ((l.filter (fun c => !isJsWs c)).map toUpperChar).length > 3
    · simp only [if_pos h, List.append_assoc]
      rfl
    · simp only [if_neg h]
  · intro l h
    obtain ⟨pre, ws, d, a, b, hdec, hpre, hws, hd, ha, hb⟩ := (POSTCODE_RE_iff _).mp h
    have hfil : l.filter (fun c => !isJsWs c) = pre ++ [d, a, b] := by
      rw [← filter_jsTrim l, hdec, filter_of_decomp hpre hws hd ha hb]
    have hclean : (l.filter (fun c => !isJsWs c)).map toUpperChar
        = pre.map toUpperChar ++ [toUpperChar d, toUpperChar a, toUpperChar b] := by
      rw [hfil]
      simp
    have hplen := (preShape_length hpre).1
    unfold formatPostcode
    rw [hclean]
    have hgt : (pre.map toUpperChar
        ++ [toUpperChar d, toUpperChar a, toUpperChar b]).length > 3 := by
      simp only [List.length_append, List.length_map, List.length_cons,
        List.length_nil]
      omega
    rw [if_pos hgt]
    have hsplit : (pre.map toUpperChar
        ++ [toUpperChar d, toUpperChar a, toUpperChar b]).length - 3
        = (pre.map toUpperChar).length := by
      simp only [List.length_append, List.length_map, List.length_cons,
        List.length_nil]
      omega
    rw [hsplit, List.take_left, List.drop_left]
    apply (POSTCODE_RE_iff _).mpr
    refine ⟨pre.map toUpperChar, [' '], toUpperChar d, toUpperChar a,
      toUpperChar b, by simp, preShape_map_upper hpre, ?_, ?_, ?_, ?_⟩
    · intro c hc
      simp only [List.mem_singleton] at hc
      rw [hc]
      decide
    · rw [isDigit09_toUpperChar hd]
      exact hd
    · exact isLetterAZ_toUpperChar ha
    · exact isLetterAZ_toUpperChar hb

/-- Witness for C8 at the concrete input " bn1 1ab " (trims to a match,
and its auto-formatted form "BN1 1AB" still matches). -/
theorem formatPostcode_spec_and_preserves_match_witness :
    formatPostcode [' ', 'b', 'n', '1', ' ', '1', 'a', 'b', ' ']
        = specAutoFormat [' ', 'b', 'n', '1', ' ', '1', 'a', 'b', ' '] ∧
    POSTCODE_RE (formatPostcode [' ', 'b', 'n', '1', ' ', '1', 'a', 'b', ' ']) = true :=
  ⟨formatPostcode_spec_and_preserves_match.1 _,
   formatPostcode_spec_and_preserves_match.2
     [' ', 'b', 'n', '1', ' ', '1', 'a', 'b', ' '] (by decide)⟩

/-! ### Session token expiry (utils/token.ts)

The browser built-ins `atob` and `JSON.parse` are abstracted as one
parameter `parse` from the base64 text of the payload segment to an
optional decoded payload; `none` models any decode/parse failure (the
`try/catch` in `decodeJwtPayload` converts every throw into `null`, so
the embedded functions are total and never throw to the caller). -/

/-- The optional claims of a decoded JWT payload (`JwtPayload`). -/
structure JwtPayload where
  exp : Option Int
  sub : Option (List Char)
deriving DecidableEq

/-- The two global character replacements applied to the payload segment
(dash to plus, underscore to slash): base64url to base64. -/
def b64urlToStd (s : List Char) : List Char :=
  s.map fun c => if c = '-' then '+' else if c = '_' then '/' else c

/-- `decodeJwtPayload`: split on dots, require exactly three segments,
decode the middle segment; any failure yields `none`. -/
def decodeJwtPayload (parse : List Char → Option JwtPayload)
    (token : List Char) : Option JwtPayload :=
  match token.splitOn '.' with
  | [_, p1, _] => parse (b64urlToStd p1)
  | _ => none

/-- `isTokenExpired`: no usable decoded `exp` (missing, zero, or a failed
decode) counts as expired; otherwise the token is expired exactly when
`Date.now() >= (exp - 30) * 1000`, a 30-second safety buffer. -/
def isTokenExpired (parse : List Char → Option JwtPayload)
    (token : List Char) (now : Int) : Bool :=
  match decodeJwtPayload parse token with
  | none => true
  | some payload =>
    match payload.exp with
    | none => true
    | some e => if e = 0 then true else decide ((e - 30) * 1000 ≤ now)

/-- A token decodes to a usable expiry `e`: it has exactly three
dot-separated segments, the second decodes to a payload, and that
payload's `exp` is present and truthy. -/
def decodesWithUsableExp (parse : List Char → Option JwtPayload)
    (token : List Char) (e : Int) : Prop :=
  ∃ s1 s2 s3 p, token.splitOn '.' = [s1, s2, s3] ∧
    parse (b64urlToStd s2) = some p ∧ p.exp = some e ∧ e ≠ 0

lemma decodeJwtPayload_eq_some_iff (parse : List Char → Option JwtPayload)
    (token : List Char) (p : JwtPayload) :
    decodeJwtPayload parse token = some p ↔
      ∃ s1 s2 s3, token.splitOn '.' = [s1, s2, s3] ∧
        parse (b64urlToStd s2) = some p := by
  rcases hsp : token.splitOn '.' with _ | ⟨s1, _ | ⟨s2, _ | ⟨s3, _ | ⟨s4, rest⟩⟩⟩⟩
  · simp [decodeJwtPayload, hsp]
  · simp [decodeJwtPayload, hsp]
  · simp [decodeJwtPayload, hsp]
  · have hred : decodeJwtPayload parse token = parse (b64urlToStd s2) := by
      simp only [decodeJwtPayload, hsp]
    rw [hred]
    constructor
    · intro h
      exact ⟨s1, s2, s3, rfl, h⟩
    · rintro ⟨a, b, c, heq, hp⟩
      have h2 : s2 = b := by
        simp only [List.cons.injEq, and_true] at heq
        exact heq.2.1
      rw [h2]
      exact hp
  · simp [decodeJwtPayload, hsp]

lemma isTokenExpired_eq_false_iff (parse : List Char → Option JwtPayload)
    (token : List Char) (now : Int) :
    isTokenExpired parse token now = false ↔
      ∃ e, decodesWithUsableExp parse token e ∧ now < (e - 30) * 1000 := by
  cases hd : decodeJwtPayload parse token with
  | none =>
    have hval : isTokenExpired parse token now = true := by
      simp only [isTokenExpired, hd]
    rw [hval]
    constructor
    · intro h
      exact absurd h (by simp)
    · rintro ⟨e, ⟨s1, s2, s3, p, hsp, hp, hexp, h0⟩, hlt⟩
      have hsome : decodeJwtPayload parse token = some p :=
        (decodeJwtPayload_eq_some_iff parse token p).mpr ⟨s1, s2, s3, hsp, hp⟩
      rw [hd] at hsome
      exact absurd hsome (by simp)
  | some p =>
    cases he : p.exp with
    | none =>
      have hval : isTokenExpired parse token now = true := by
        simp only [isTokenExpired, hd, he]
      rw [hval]
      constructor
      · intro h
        exact absurd h (by simp)
      · rintro ⟨e, ⟨s1, s2, s3, p', hsp, hp, hexp, h0⟩, hlt⟩
        have hsome : decodeJwtPayload parse token = some p' :=
          (decodeJwtPayload_eq_some_iff parse token p').mpr ⟨s1, s2, s3, hsp, hp⟩
        rw [hd] at hsome
        obtain rfl : p' = p := (Option.some_injective _ hsome.symm)
        rw [he] at hexp
        exact absurd hexp (by simp)
    | some e =>
      by_cases h0 : e = 0
      · have hval : isTokenExpired parse token now = true := by
          simp only [isTokenExpired, hd, he, if_pos h0]
        rw [hval]
        constructor
        · intro h
          exact absurd h (by simp)
        · rintro ⟨e', ⟨s1, s2, s3, p', hsp, hp, hexp, h0'⟩, hlt⟩
          have hsome : decodeJwtPayload parse token = some p' :=
            (decodeJwtPayload_eq_some_iff parse token p').mpr ⟨s1, s2, s3, hsp, hp⟩
          rw [hd] at hsome
          obtain rfl : p' = p := (Option.some_injective _ hsome.symm)
          rw [he] at hexp
          have : e' = e := Option.some_injective _ hexp.symm
          exact absurd (this.trans h0) h0'
      · have hval : isTokenExpired parse token now
            = decide ((e - 30) * 1000 ≤ now) := by
          simp only [isTokenExpired, hd, he, if_neg h0]
        rw [hval]
        constructor
        · intro h
          rw [decide_eq_false_iff_not] at h
          refine ⟨e, ⟨?_, by omega⟩⟩
          obtain ⟨s1, s2, s3, hsp, hp⟩ :=
            (decodeJwtPayload_eq_some_iff parse token p).mp hd
          exact ⟨s1, s2, s3, p, hsp, hp, he, h0⟩
        · rintro ⟨e', ⟨s1, s2, s3, p', hsp, hp, hexp, h0'⟩, hlt⟩
          have hsome : decodeJwtPayload parse token = some p' :=
            (decodeJwtPayload_eq_some_iff parse token p').mpr ⟨s1, s2, s3, hsp, hp⟩
          rw [hd] at hsome
          obtain rfl : p' = p := (Option.some_injective _ hsome.symm)
          rw [he] at hexp
          obtain rfl : e' = e := Option.some_injective _ hexp.symm
          rw [decide_eq_false_iff_not]
          omega

/-- C4: `isTokenExpired` (a total function, so it never throws) returns
`false` exactly when the token has three dot-separated segments whose
second decodes to a payload with a usable `exp` and
`now < (exp - 30) * 1000`; consequently it is `true` for an expiry in the
past, `true` for an expiry within the next 30 seconds, `false` for an
expiry more than 30 seconds in the future, and `true` whenever decoding
fails. -/
theorem isTokenExpired_spec (parse : List Char → Option JwtPayload) :
    (∀ (token : List Char) (now : Int),
      isTokenExpired parse token now = false ↔
        ∃ e, decodesWithUsableExp parse token e ∧ now < (e - 30) * 1000) ∧
    (∀ (token : List Char) (now e : Int),
      decodesWithUsableExp parse token e → e * 1000 ≤ now →
        isTokenExpired parse token now = true) ∧
    (∀ (token : List Char) (now e : Int),
      decodesWithUsableExp parse token e → e * 1000 ≤ now + 30000 →
        isTokenExpired parse token now = true) ∧
    (∀ (token : List Char) (now e : Int),
      decodesWithUsableExp parse token e → now + 30000 < e * 1000 →
        isTokenExpired parse token now = false) ∧
    (∀ (token : List Char) (now : Int),
      decodeJwtPayload parse token = none → isTokenExpired parse token now = true) := by
  refine ⟨isTokenExpired_eq_false_iff parse, ?_, ?_, ?_, ?_⟩
  · intro token now e hdec hpast
    by_contra hc
    rw [Bool.not_eq_true, isTokenExpired_eq_false_iff] at hc
    obtain ⟨e', hdec', hlt⟩ := hc
    obtain ⟨s1, s2, s3, p, hsp, hp, hexp, h0⟩ := hdec
    obtain ⟨t1, t2, t3, q, htp, hq, hqexp, h0'⟩ := hdec'
    rw [hsp] at htp
    obtain ⟨rfl, rfl, rfl⟩ : t1 = s1 ∧ t2 = s2 ∧ t3 = s3 := by
      simpa using htp.symm
    rw [hp] at hq
    obtain rfl : q = p := Option.some_injective _ hq.symm
    rw [hexp] at hqexp
    obtain rfl : e' = e := Option.some_injective _ hqexp.symm
    omega
  · intro token now e hdec hsoon
    by_contra hc
    rw [Bool.not_eq_true, isTokenExpired_eq_false_iff] at hc
    obtain ⟨e', hdec', hlt⟩ := hc
    obtain ⟨s1, s2, s3, p, hsp, hp, hexp, h0⟩ := hdec
    obtain ⟨t1, t2, t3, q, htp, hq, hqexp, h0'⟩ := hdec'
    rw [hsp] at htp
    obtain ⟨rfl, rfl, rfl⟩ : t1 = s1 ∧ t2 = s2 ∧ t3 = s3 := by
      simpa using htp.symm
    rw [hp] at hq
    obtain rfl : q = p := Option.some_injective _ hq.symm
    rw [hexp] at hqexp
    obtain rfl : e' = e := Option.some_injective _ hqexp.symm
    omega
  · intro token now e hdec hfar
    rw [isTokenExpired_eq_false_iff]
    exact ⟨e, hdec, by omega⟩
  · intro token now hnone
    unfold isTokenExpired
    rw [hnone]

/-- A concrete decoder and token for the C4 witness. -/
def witnessParse : List Char → Option JwtPayload :=
  fun s => if s = ['P'] then some ⟨some 100, none⟩ else none

/-- A three-segment token whose middle segment is `"P"`. -/
def witnessToken : List Char := ['h', '.', 'P', '.', 's']

/-- Witness for C4: with expiry at 100 s, the token is valid at t = 0 ms,
expired at t = 100000 ms (past) and already expired at t = 80000 ms
(inside the 30 s buffer); an undecodable token is always expired. -/
theorem isTokenExpired_spec_witness :
    isTokenExpired witnessParse witnessToken 0 = false ∧
    isTokenExpired witnessParse witnessToken 100000 = true ∧
    isTokenExpired witnessParse witnessToken 80000 = true ∧
    isTokenExpired witnessParse ['x'] 0 = true :=
  ⟨((isTokenExpired_spec witnessParse).1 witnessToken 0).mpr
      ⟨100, ⟨['h'], ['P'], ['s'], ⟨some 100, none⟩, by decide, by decide,
        rfl, by decide⟩, by decide⟩,
   (isTokenExpired_spec witnessParse).2.1 witnessToken 100000 100
      ⟨['h'], ['P'], ['s'], ⟨some 100, none⟩, by decide, by decide,
        rfl, by decide⟩ (by decide),
   (isTokenExpired_spec witnessParse).2.2.1 witnessToken 80000 100
      ⟨['h'], ['P'], ['s'], ⟨some 100, none⟩, by decide, by decide,
        rfl, by decide⟩ (by decide),
   (isTokenExpired_spec witnessParse).2.2.2.2 ['x'] 0 (by decide)⟩

/-! ### Width overlay styling (Map/WidthMarkers) -/

/-- `getWidthColor`: green from 4 m, amber from 3 m, red below. -/
def getWidthColor (width : ℚ) : String :=
  if width ≥ 4 then "#22c55e"
  else if width ≥ 3 then "#f59e0b"
  else "#ef4444"

/-- Severity rank of a colour, red lowest, green highest, used to express
monotonicity of the width-to-colour mapping. -/
def colorRank (c : String) : ℕ :=
  if c = "#ef4444" then 0 else if c = "#f59e0b" then 1 else 2

lemma colorRank_green : colorRank "#22c55e" = 2 := by decide
lemma colorRank_amber : colorRank "#f59e0b" = 1 := by decide
lemma colorRank_red : colorRank "#ef4444" = 0 := by decide

/-- C6: the width-to-colour mapping is total over the rationals and
monotonically non-decreasing in rating, with thresholds inclusive at the
lower band bounds: widths from 4 m are green, widths in [3, 4) are amber,
widths below 3 m are red; in particular 4.5 and 4.0 are green, 3.5 amber
and 2.9 red. -/
theorem getWidthColor_spec :
    (∀ w : ℚ, 4 ≤ w → getWidthColor w = "#22c55e") ∧
    (∀ w : ℚ, 3 ≤ w → w < 4 → getWidthColor w = "#f59e0b") ∧
    (∀ w : ℚ, w < 3 → getWidthColor w = "#ef4444") ∧
    (∀ w1 w2 : ℚ, w1 ≤ w2 →
      colorRank (getWidthColor w1) ≤ colorRank (getWidthColor w2)) ∧
    (getWidthColor (9/2) = "#22c55e" ∧ getWidthColor 4 = "#22c55e" ∧
      getWidthColor (7/2) = "#f59e0b" ∧ getWidthColor (29/10) = "#ef4444") := by
  have hgreen : ∀ w : ℚ, 4 ≤ w → getWidthColor w = "#22c55e" := by
    intro w h
    unfold getWidthColor
    rw [if_pos h]
  have hamber : ∀ w : ℚ, 3 ≤ w → w < 4 → getWidthColor w = "#f59e0b" := by
    intro w h1 h2
    unfold getWidthColor
    rw [if_neg (by linarith), if_pos h1]
  have hred : ∀ w : ℚ, w < 3 → getWidthColor w = "#ef4444" := by
    intro w h
    unfold getWidthColor
    rw [if_neg (by linarith), if_neg (by linarith)]
  refine ⟨hgreen, hamber, hred, ?_, ?_⟩
  · intro w1 w2 h
    rcases le_or_lt 4 w2 with h2 | h2
    · rw [hgreen w2 h2, colorRank_green]
      unfold colorRank
      split_ifs <;> omega
    · rcases le_or_lt 3 w2 with h3 | h3
      · rw [hamber w2 h3 h2, colorRank_amber]
        rcases le_or_lt 3 w1 with h4 | h4
        · rw [hamber w1 h4 (by linarith), colorRank_amber]
        · rw [hred w1 h4, colorRank_red]
          omega
      · rw [hred w2 h3, colorRank_red, hred w1 (by linarith), colorRank_red]
  · exact ⟨hgreen _ (by norm_num), hgreen _ (by norm_num),
      hamber _ (by norm_num) (by norm_num), hred _ (by norm_num)⟩

/-- Witness for C6 at concrete widths, including the monotone pair
(3, 4). -/
theorem getWidthColor_spec_witness :
    getWidthColor 5 = "#22c55e" ∧ getWidthColor (10/3) = "#f59e0b" ∧
    getWidthColor 2 = "#ef4444" ∧
    colorRank (getWidthColor 3) ≤ colorRank (getWidthColor 4) :=
  ⟨getWidthColor_spec.1 5 (by norm_num),
   getWidthColor_spec.2.1 (10/3) (by norm_num) (by norm_num),
   getWidthColor_spec.2.2.1 2 (by norm_num),
   getWidthColor_spec.2.2.2.1 3 4 (by norm_num)⟩

/-! ### Vehicle envelope projection (Map/VehicleOverlay.tsx) -/

/-- A vehicle profile as served by the vehicle catalogue. -/
structure VehicleProfile where
  id : Option String := none
  name : String
  vehicle_class : String
  width_m : ℚ
  length_m : ℚ
  height_m : ℚ
  weight_kg : ℚ
  turning_radius_m : ℚ
  mirror_width_m : ℚ := 0
deriving DecidableEq

/-- A WGS84 coordinate in degrees. -/
structure LatLng where
  lat : ℚ
  lng : ℚ
deriving DecidableEq

/-- The projected overlay geometry: the body rectangle's corner bounds
and the turning circle (centre plus metric radius). -/
structure VehicleEnvelope where
  southWest : LatLng
  northEast : LatLng
  circleCenter : LatLng
  circleRadius_m : ℚ
deriving DecidableEq

/-- Half of the body width converted to longitude degrees. -/
def halfWidthDeg (width_m : ℚ) : ℚ := (width_m / 2) / 69000

/-- Half of the body length converted to latitude degrees. -/
def halfLengthDeg (length_m : ℚ) : ℚ := (length_m / 2) / 111320

/-- Profile lookup by class key (`vehicles?.find`). -/
def vehicleFor (vehicles : List VehicleProfile) (vehicleClass : String) :
    Option VehicleProfile :=
  vehicles.find? fun v => v.vehicle_class == vehicleClass

/-- The geometry rendered by `VehicleOverlay`: nothing when the profile
cannot be resolved, otherwise the bounds rectangle plus the turning
circle centred on the assessment coordinate. -/
def vehicleOverlay (vehicles : List VehicleProfile) (vehicleClass : String)
    (lat lon : ℚ) : Option VehicleEnvelope :=
  match vehicleFor vehicles vehicleClass with
  | none => none
  | some vehicle =>
    some ⟨⟨lat - halfLengthDeg vehicle.length_m, lon - halfWidthDeg vehicle.width_m⟩,
      ⟨lat + halfLengthDeg vehicle.length_m, lon + halfWidthDeg vehicle.width_m⟩,
      ⟨lat, lon⟩, vehicle.turning_radius_m⟩

/-- C3: for every resolved profile the projected rectangle is centred on
the assessment coordinate, its half-extents are the claimed degree
conversions of half the metric width and length (hence linear in them),
and the turning circle shares the centre with radius `turning_radius_m`
in metres. -/
theorem vehicleOverlay_spec :
    (∀ (vehicles : List VehicleProfile) (cls : String) (lat lon : ℚ)
        (v : VehicleProfile) (env : VehicleEnvelope),
      vehicleFor vehicles cls = some v →
      vehicleOverlay vehicles cls lat lon = some env →
      (env.southWest.lat + env.northEast.lat) / 2 = lat ∧
      (env.southWest.lng + env.northEast.lng) / 2 = lon ∧
      (env.northEast.lng - env.southWest.lng) / 2 = halfWidthDeg v.width_m ∧
      (env.northEast.lat - env.southWest.lat) / 2 = halfLengthDeg v.length_m ∧
      env.circleCenter = ⟨lat, lon⟩ ∧
      env.circleRadius_m = v.turning_radius_m) ∧
    (∀ w : ℚ, halfWidthDeg w = (w / 2) / 69000) ∧
    (∀ len : ℚ, halfLengthDeg len = (len / 2) / 111320) ∧
    (∀ c w : ℚ, halfWidthDeg (c * w) = c * halfWidthDeg w) ∧
    (∀ c len : ℚ, halfLengthDeg (c * len) = c * halfLengthDeg len) := by
  refine ⟨?_, fun _ => rfl, fun _ => rfl, ?_, ?_⟩
  · intro vehicles cls lat lon v env hfind hover
    unfold vehicleOverlay at hover
    rw [hfind] at hover
    have henv : env = ⟨⟨lat - halfLengthDeg v.length_m, lon - halfWidthDeg v.width_m⟩,
        ⟨lat + halfLengthDeg v.length_m, lon + halfWidthDeg v.width_m⟩,
        ⟨lat, lon⟩, v.turning_radius_m⟩ := (Option.some_injective _ hover).symm
    subst henv
    refine ⟨by ring, by ring, by ring, by ring, rfl, rfl⟩
  · intro c w
    unfold halfWidthDeg
    ring
  · intro c len
    unfold halfLengthDeg
    ring

/-- A concrete profile for the C3 witness. -/
def lutonProfile : VehicleProfile :=
  { name := "Luton van", vehicle_class := "luton_3_5t", width_m := 2,
    length_m := 6, height_m := 3, weight_kg := 3500, turning_radius_m := 12 }

/-- The concrete envelope the C3 witness expects for `lutonProfile` at
centre (50, 0). -/
def lutonEnvelope : VehicleEnvelope :=
  ⟨⟨50 - 3/111320, -(1/69000)⟩, ⟨50 + 3/111320, 1/69000⟩, ⟨50, 0⟩, 12⟩

/-- Witness for C3 at the concrete profile and centre (50, 0). -/
theorem vehicleOverlay_spec_witness :
    (lutonEnvelope.southWest.lat + lutonEnvelope.northEast.lat) / 2 = 50 ∧
    lutonEnvelope.circleRadius_m = lutonProfile.turning_radius_m := by
  have hfind : vehicleFor [lutonProfile] "luton_3_5t" = some lutonProfile := rfl
  have hover : vehicleOverlay [lutonProfile] "luton_3_5t" 50 0 = some lutonEnvelope := by
    unfold vehicleOverlay
    rw [hfind]
    unfold lutonEnvelope lutonProfile halfWidthDeg halfLengthDeg
    norm_num
  have h := vehicleOverlay_spec.1 [lutonProfile] "luton_3_5t" 50 0 lutonProfile
    lutonEnvelope hfind hover
  exact ⟨h.1, h.2.2.2.2.2⟩

/-! ### Selection state (routes/_layout/assessments.tsx, AssessmentPanel.tsx) -/

/-- The outcome rating enum of the result document. -/
inductive Rating where
  | GREEN
  | AMBER
  | RED
deriving DecidableEq

/-- One vehicle's entry in the result document. -/
structure VehicleAssessment where
  vehicle_name : String
  vehicle_class : String
  overall_rating : Rating
  confidence : ℚ
  recommendation : String
deriving DecidableEq

/-- The assessment result document, restricted to the fields the
orchestration state machine reads. -/
structure AssessmentResult where
  id : Option String := none
  postcode : String
  latitude : ℚ
  longitude : ℚ
  overall_rating : Rating
  notes : Option String := none
  vehicle_assessments : List VehicleAssessment := []
deriving DecidableEq

/-- The vehicle-card click handler: clicking the selected class clears the
selection, clicking any other class selects it. -/
def clickVehicle (selectedVehicle : Option String) (clicked : String) :
    Option String :=
  if selectedVehicle = some clicked then none else some clicked

/-- The page state of the assessments route. -/
structure PageState where
  result : Option AssessmentResult
  selectedVehicle : Option String
deriving DecidableEq

/-- The `onSuccess` handler of `handleSearch`: store the new result and
reset the selection. -/
def onSearchSuccess (_st : PageState) (data : AssessmentResult) : PageState :=
  { result := some data, selectedVehicle := none }

/-- C5: clicking the already-selected vehicle clears the selection,
clicking a different vehicle replaces the selection in a single transition
(no intermediate cleared state), and the arrival of a new result resets
the selection to none. -/
theorem selection_toggle_spec :
    (∀ (sel : Option String) (k : String), sel = some k → clickVehicle sel k = none) ∧
    (∀ (sel : Option String) (k : String), sel ≠ some k →
      clickVehicle sel k = some k) ∧
    (∀ (st : PageState) (data : AssessmentResult),
      (onSearchSuccess st data).selectedVehicle = none ∧
      (onSearchSuccess st data).result = some data) := by
  refine ⟨?_, ?_, ?_⟩
  · intro sel k h
    unfold clickVehicle
    rw [if_pos h]
  · intro sel k h
    unfold clickVehicle
    rw [if_neg h]
  · intro st data
    exact ⟨rfl, rfl⟩

/-- Witness for C5: toggling "luton_3_5t" off, replacing it directly with
"box_7_5t", and resetting on a new result. -/
theorem selection_toggle_spec_witness :
    clickVehicle (some "luton_3_5t") "luton_3_5t" = none ∧
    clickVehicle (some "luton_3_5t") "box_7_5t" = some "box_7_5t" ∧
    (onSearchSuccess (PageState.mk none (some "luton_3_5t"))
      { postcode := "BN1 1AB", latitude := 50, longitude := 0,
        overall_rating := .GREEN }).selectedVehicle = none :=
  ⟨selection_toggle_spec.1 (some "luton_3_5t") "luton_3_5t" rfl,
   selection_toggle_spec.2.1 (some "luton_3_5t") "box_7_5t" (by decide),
   (selection_toggle_spec.2.2 (PageState.mk none (some "luton_3_5t"))
      { postcode := "BN1 1AB", latitude := 50, longitude := 0,
        overall_rating := .GREEN }).1⟩

/-! ### Assessment client (hooks/useAssessment.ts, `runAssessment`)

The transport is modelled as a function from requests to responses; a
response carries the HTTP status, the JSON parse of the body as an error
object (`none` models a body that is not parseable JSON, matching the
caught throw of `res.json()`), and the parsed result document used on a
2xx status.  The token storage (`localStorage`) is threaded explicitly:
the run returns the final stored credential. -/

/-- The endpoint variant: the persisted authenticated endpoint or the
anonymous `/quick` endpoint. -/
inductive Endpoint where
  | assessments
  | quick
deriving DecidableEq

/-- One issued HTTP request: endpoint variant, postcode query parameter
and optional bearer token header. -/
structure Request where
  endpoint : Endpoint
  postcode : String
  authToken : Option String
deriving DecidableEq

/-- The error body shape `{detail: string}`; `detail = none` models a
JSON body without a `detail` field. -/
structure ErrorBody where
  detail : Option String
deriving DecidableEq

/-- A transport response. -/
structure HttpResponse where
  status : ℕ
  errorBody : Option ErrorBody
  resultBody : AssessmentResult

/-- `res.ok` per the fetch specification: status in 200..299. -/
def resOk (status : ℕ) : Bool := 200 ≤ status && status ≤ 299

/-- The error message synthesised for a non-2xx response: the truthy
`detail` of a parsed JSON body, the bare default when the body parses
without a truthy detail, and the status-bearing default when the body is
not parseable JSON. -/
def errorDetail (r : HttpResponse) : String :=
  match r.errorBody with
  | some body =>
    match body.detail with
    | some d => if d = "" then "Assessment failed" else d
    | none => "Assessment failed"
  | none => "Assessment failed (" ++ toString r.status ++ ")"

/-- The observable outcome of one `runAssessment` call: the returned or
thrown value, the stored credential afterwards, and the requests issued
in order. -/
structure RunOutcome where
  result : Except String AssessmentResult
  storedToken : Option String
  requests : List Request

/-- `runAssessment`: when a token is stored, try the authenticated
endpoint; on 2xx return the body; on 401/403/404 clear the stored
credential and fall through to the anonymous `/quick` endpoint; on any
other status throw the synthesised error.  Without a token (or after the
fall-through) call `/quick` and mirror its body or error. -/
def runAssessment (server : Request → HttpResponse)
    (storedToken : Option String) (postcode : String) : RunOutcome :=
  match storedToken with
  | some token =>
    let req1 : Request := ⟨.assessments, postcode, some token⟩
    let res1 := server req1
    if resOk res1.status then ⟨.ok res1.resultBody, some token, [req1]⟩
    else if res1.status = 401 ∨ res1.status = 403 ∨ res1.status = 404 then
      let req2 : Request := ⟨.quick, postcode, none⟩
      let res2 := server req2
      if resOk res2.status then ⟨.ok res2.resultBody, none, [req1, req2]⟩
      else ⟨.error (errorDetail res2), none, [req1, req2]⟩
    else ⟨.error (errorDetail res1), some token, [req1]⟩
  | none =>
    let req2 : Request := ⟨.quick, postcode, none⟩
    let res2 := server req2
    if resOk res2.status then ⟨.ok res2.resultBody, none, [req2]⟩
    else ⟨.error (errorDetail res2), none, [req2]⟩

lemma resOk_eq_false_of_stale {s : ℕ} (h : s = 401 ∨ s = 403 ∨ s = 404) :
    resOk s = false := by
  rcases h with rfl | rfl | rfl <;> decide

lemma runAssessment_some_eq (server : Request → HttpResponse)
    (t postcode : String) :
    runAssessment server (some t) postcode
      = (if resOk (server ⟨.assessments, postcode, some t⟩).status then
          ⟨.ok (server ⟨.assessments, postcode, some t⟩).resultBody, some t,
            [⟨.assessments, postcode, some t⟩]⟩
        else if (server ⟨.assessments, postcode, some t⟩).status = 401 ∨
            (server ⟨.assessments, postcode, some t⟩).status = 403 ∨
            (server ⟨.assessments, postcode, some t⟩).status = 404 then
          (if resOk (server ⟨.quick, postcode, none⟩).status then
            ⟨.ok (server ⟨.quick, postcode, none⟩).resultBody, none,
              [⟨.assessments, postcode, some t⟩, ⟨.quick, postcode, none⟩]⟩
          else ⟨.error (errorDetail (server ⟨.quick, postcode, none⟩)), none,
              [⟨.assessments, postcode, some t⟩, ⟨.quick, postcode, none⟩]⟩)
        else ⟨.error (errorDetail (server ⟨.assessments, postcode, some t⟩)),
          some t, [⟨.assessments, postcode, some t⟩]⟩) := rfl

lemma runAssessment_none_eq (server : Request → HttpResponse) (postcode : String) :
    runAssessment server none postcode
      = (if resOk (server ⟨.quick, postcode, none⟩).status then
          ⟨.ok (server ⟨.quick, postcode, none⟩).resultBody, none,
            [⟨.quick, postcode, none⟩]⟩
        else ⟨.error (errorDetail (server ⟨.quick, postcode, none⟩)), none,
          [⟨.quick, postcode, none⟩]⟩) := rfl

/-- C1: when a credential is stored and the authenticated request comes
back 401, 403 or 404, the stored credential is cleared, exactly one
follow-up anonymous request goes to the `/quick` variant with the same
postcode, and the run's outcome is exactly that of the anonymous request
(the stale-token status itself is never surfaced). -/
theorem runAssessment_stale_token_fallback (server : Request → HttpResponse)
    (t postcode : String)
    (hstale : (server ⟨.assessments, postcode, some t⟩).status = 401 ∨
      (server ⟨.assessments, postcode, some t⟩).status = 403 ∨
      (server ⟨.assessments, postcode, some t⟩).status = 404) :
    (runAssessment server (some t) postcode).requests
      = [⟨.assessments, postcode, some t⟩, ⟨.quick, postcode, none⟩] ∧
    (runAssessment server (some t) postcode).storedToken = none ∧
    (runAssessment server (some t) postcode).result
      = (if resOk (server ⟨.quick, postcode, none⟩).status
          then .ok (server ⟨.quick, postcode, none⟩).resultBody
          else .error (errorDetail (server ⟨.quick, postcode, none⟩))) := by
  have hok := resOk_eq_false_of_stale hstale
  rw [runAssessment_some_eq, if_neg (by rw [hok]; simp), if_pos hstale]
  by_cases h2 : resOk (server ⟨.quick, postcode, none⟩).status = true
  · rw [if_pos h2, if_pos h2]
    exact ⟨rfl, rfl, rfl⟩
  · rw [if_neg h2, if_neg h2]
    exact ⟨rfl, rfl, rfl⟩

/-- The transport for the C1 witness: 401 on the authenticated endpoint,
200 with a result on `/quick`. -/
def staleServer : Request → HttpResponse :=
  fun r =>
    match r.endpoint with
    | .assessments => ⟨401, some ⟨some "Could not validate credentials"⟩,
        { postcode := "", latitude := 0, longitude := 0, overall_rating := .RED }⟩
    | .quick => ⟨200, none,
        { postcode := "BN1 1AB", latitude := 50, longitude := 0,
          overall_rating := .GREEN }⟩

/-- Witness for C1: with `staleServer` the run issues exactly the
authenticated request then the anonymous one, clears the credential, and
returns the anonymous body. -/
theorem runAssessment_stale_token_fallback_witness :
    (runAssessment staleServer (some "tok") "BN1 1AB").requests
      = [⟨.assessments, "BN1 1AB", some "tok"⟩, ⟨.quick, "BN1 1AB", none⟩] ∧
    (runAssessment staleServer (some "tok") "BN1 1AB").storedToken = none ∧
    (runAssessment staleServer (some "tok") "BN1 1AB").result
      = (if resOk (staleServer ⟨.quick, "BN1 1AB", none⟩).status
          then .ok (staleServer ⟨.quick, "BN1 1AB", none⟩).resultBody
          else .error (errorDetail (staleServer ⟨.quick, "BN1 1AB", none⟩))) :=
  runAssessment_stale_token_fallback staleServer "tok" "BN1 1AB" (Or.inl rfl)

/-- C7 counterexample: a 500 response on the authenticated path whose
body parses as JSON without a `detail` field produces the message
"Assessment failed" without the embedded status, contradicting the
claimed "Assessment failed (500)". -/
def jsonNoDetailServer : Request → HttpResponse :=
  fun _ => ⟨500, some ⟨none⟩,
    { postcode := "", latitude := 0, longitude := 0, overall_rating := .RED }⟩

/-- Counterexample for C7: status 500, body parses as JSON (`{}`) but has
no `detail`, yet the surfaced message is "Assessment failed", not
"Assessment failed (500)". -/
theorem errorDetail_claim_counterexample :
    (jsonNoDetailServer ⟨.assessments, "BN1 1AB", some "tok"⟩).status = 500 ∧
    (jsonNoDetailServer ⟨.assessments, "BN1 1AB", some "tok"⟩).errorBody
      = some ⟨none⟩ ∧
    (runAssessment jsonNoDetailServer (some "tok") "BN1 1AB").result
      = .error "Assessment failed" ∧
    "Assessment failed" ≠ "Assessment failed (500)" :=
  ⟨rfl, rfl, rfl, by decide⟩

/-- C7 (amended): on any non-2xx status other than the stale-token case
on the authenticated path, the run throws a typed error and issues no
further request; the message is the parsed `detail` when the body is JSON
with a non-empty detail, exactly "Assessment failed (<status>)" when the
body is not parseable JSON, and "Assessment failed" when the body is JSON
without a non-empty detail. -/
theorem runAssessment_error_spec :
    (∀ (server : Request → HttpResponse) (t postcode : String),
      resOk (server ⟨.assessments, postcode, some t⟩).status = false →
      ¬((server ⟨.assessments, postcode, some t⟩).status = 401 ∨
        (server ⟨.assessments, postcode, some t⟩).status = 403 ∨
        (server ⟨.assessments, postcode, some t⟩).status = 404) →
      (runAssessment server (some t) postcode).result
        = .error (errorDetail (server ⟨.assessments, postcode, some t⟩)) ∧
      (runAssessment server (some t) postcode).requests
        = [⟨.assessments, postcode, some t⟩]) ∧
    (∀ (server : Request → HttpResponse) (postcode : String),
      resOk (server ⟨.quick, postcode, none⟩).status = false →
      (runAssessment server none postcode).result
        = .error (errorDetail (server ⟨.quick, postcode, none⟩)) ∧
      (runAssessment server none postcode).requests = [⟨.quick, postcode, none⟩]) ∧
    (∀ (r : HttpResponse), r.errorBody = none →
      errorDetail r = "Assessment failed (" ++ toString r.status ++ ")") ∧
    (∀ (r : HttpResponse) (d : String), r.errorBody = some ⟨some d⟩ → d ≠ "" →
      errorDetail r = d) ∧
    (∀ (r : HttpResponse), r.errorBody = some ⟨none⟩ ∨ r.errorBody = some ⟨some ""⟩ →
      errorDetail r = "Assessment failed") := by
  refine ⟨?_, ?_, ?_, ?_, ?_⟩
  · intro server t postcode hnok hnst
    rw [runAssessment_some_eq, if_neg (by rw [hnok]; simp), if_neg hnst]
    exact ⟨rfl, rfl⟩
  · intro server postcode hnok
    rw [runAssessment_none_eq, if_neg (by rw [hnok]; simp)]
    exact ⟨rfl, rfl⟩
  · intro r h
    unfold errorDetail
    rw [h]
  · intro r d h hne
    unfold errorDetail
    rw [h]
    simp only [if_neg hne]
  · intro r h
    unfold errorDetail
    rcases h with h | h <;> rw [h]
    simp

/-- The transport for the C7 witness: 500 with a JSON `detail` on the
authenticated endpoint. -/
def detailServer : Request → HttpResponse :=
  fun _ => ⟨500, some ⟨some "Geocoding failed"⟩,
    { postcode := "", latitude := 0, longitude := 0, overall_rating := .RED }⟩

/-- Witness for the amended C7: a 500 with `detail` surfaces that detail
and stops after one request; a body that is not JSON yields the
status-bearing default. -/
theorem runAssessment_error_spec_witness :
    (runAssessment detailServer (some "tok") "BN1 1AB").result
      = .error (errorDetail (detailServer ⟨.assessments, "BN1 1AB", some "tok"⟩)) ∧
    (runAssessment detailServer (some "tok") "BN1 1AB").requests
      = [⟨.assessments, "BN1 1AB", some "tok"⟩] ∧
    errorDetail ⟨502, none,
      { postcode := "", latitude := 0, longitude := 0, overall_rating := .RED }⟩
      = "Assessment failed (502)" ∧
    errorDetail ⟨500, some ⟨some "Geocoding failed"⟩,
      { postcode := "", latitude := 0, longitude := 0, overall_rating := .RED }⟩
      = "Geocoding failed" :=
  ⟨(runAssessment_error_spec.1 detailServer "tok" "BN1 1AB" (by decide) (by decide)).1,
   (runAssessment_error_spec.1 detailServer "tok" "BN1 1AB" (by decide) (by decide)).2,
   runAssessment_error_spec.2.2.1 _ rfl,
   runAssessment_error_spec.2.2.2.1 _ "Geocoding failed" rfl (by decide)⟩

/-- C10: endpoint selection depends only on the presence of a stored
credential.  `runAssessment` takes no clock and never calls
`isTokenExpired`; in particular, for any token that `isTokenExpired`
judges expired at any time, the first (and possibly only authenticated)
request is still the authenticated one carrying that token. -/
theorem runAssessment_ignores_expiry
    (server : Request → HttpResponse) (t : String) (postcode : String)
    (parse : List Char → Option JwtPayload) (now : Int)
    (hexpired : isTokenExpired parse t.data now = true) :
    (runAssessment server (some t) postcode).requests.head?
      = some ⟨.assessments, postcode, some t⟩ ∧
    (runAssessment server none postcode).requests
      = [⟨.quick, postcode, none⟩] := by
  constructor
  · rw [runAssessment_some_eq]
    by_cases h1 : resOk (server ⟨.assessments, postcode, some t⟩).status = true
    · rw [if_pos h1]
      rfl
    · rw [if_neg h1]
      by_cases h2 : (server ⟨.assessments, postcode, some t⟩).status = 401 ∨
          (server ⟨.assessments, postcode, some t⟩).status = 403 ∨
          (server ⟨.assessments, postcode, some t⟩).status = 404
      · rw [if_pos h2]
        by_cases h3 : resOk (server ⟨.quick, postcode, none⟩).status = true
        · rw [if_pos h3]
          rfl
        · rw [if_neg h3]
          rfl
      · rw [if_neg h2]
        rfl
  · rw [runAssessment_none_eq]
    by_cases h3 : resOk (server ⟨.quick, postcode, none⟩).status = true
    · rw [if_pos h3]
    · rw [if_neg h3]

/-- Witness for C10: the token "expired" is judged expired by every
decoder at time 0 (it has no three-segment structure), yet the run still
issues the authenticated request first with it. -/
theorem runAssessment_ignores_expiry_witness :
    (runAssessment staleServer (some "expired") "BN1 1AB").requests.head?
      = some ⟨.assessments, "BN1 1AB", some "expired"⟩ ∧
    (runAssessment staleServer none "BN1 1AB").requests
      = [⟨.quick, "BN1 1AB", none⟩] :=
  runAssessment_ignores_expiry staleServer "expired" "BN1 1AB"
    (fun _ => none) 0 (by decide)

/-! ### Map surface mount workaround (Map/MapContainer.tsx)

The anchor is the DOM container: an optional internal stamp (the stale
identifier a prior instance leaves behind) plus its child nodes, each
tagged with the id of the map instance that created it.  Stock Leaflet
behaviour is modelled from the spec: the library refuses to initialise a
container that already carries a stamp, and a freshly created instance
stamps the container and appends its own layer nodes. -/

/-- The DOM anchor of the map surface. -/
structure MapAnchor where
  leafletId : Option ℕ
  children : List ℕ
deriving DecidableEq

/-- Modelled from the spec: stock Leaflet `_initContainer` (the map
library itself is not part of the repository).  It throws
"Map container is already initialized" when the anchor still carries an
internal identifier, and otherwise stamps the anchor and adds the new
instance's layer nodes. -/
def origInitContainer (freshId : ℕ) (c : MapAnchor) : Except String MapAnchor :=
  if c.leafletId.isSome then .error "Map container is already initialized"
  else .ok ⟨some freshId, c.children ++ [freshId]⟩

/-- The patched `_initContainer`: when the anchor carries a stale
identifier, strip it and remove all leftover child nodes before
delegating to the stock initialiser. -/
def patchedInitContainer (freshId : ℕ) (c : MapAnchor) : Except String MapAnchor :=
  origInitContainer freshId
    (if c.leafletId.isSome then ({ leafletId := none, children := [] } : MapAnchor)
      else c)

/-- The unmount cleanup of `MapContainer`: dispose the instance held by
the ref (if any) and clear the ref.  Returns the disposed instance and
the new ref value. -/
def unmountCleanup (mapRef : Option ℕ) : Option ℕ × Option ℕ :=
  match mapRef with
  | some m => (some m, none)
  | none => (none, none)

/-- C9: a stale identifier is stripped and all leftover children removed
before the new instance is created; mounting twice in succession yields
exactly one live instance (the second mount succeeds and the anchor holds
only the second instance's layers); on unmount the held instance is
disposed and the ref cleared. -/
theorem mapMount_spec :
    (∀ (c : MapAnchor) (f : ℕ), c.leafletId.isSome = true →
      patchedInitContainer f c = origInitContainer f ⟨none, []⟩) ∧
    (∀ (c c1 : MapAnchor) (f1 f2 : ℕ),
      patchedInitContainer f1 c = .ok c1 →
      patchedInitContainer f2 c1 = .ok ⟨some f2, [f2]⟩) ∧
    (∀ m : Option ℕ, (unmountCleanup m).2 = none) ∧
    (∀ k : ℕ, (unmountCleanup (some k)).1 = some k) := by
  refine ⟨?_, ?_, ?_, ?_⟩
  · intro c f h
    unfold patchedInitContainer
    rw [if_pos h]
  · intro c c1 f1 f2 h1
    have hid : c1.leafletId = some f1 := by
      unfold patchedInitContainer origInitContainer at h1
      by_cases h : c.leafletId.isSome = true
      · rw [if_pos h, if_neg (by decide)] at h1
        have := Except.ok.inj h1
        rw [← this]
      · rw [if_neg h, if_neg h] at h1
        have := Except.ok.inj h1
        rw [← this]
    have hc1 : c1.leafletId.isSome = true := by
      rw [hid]
      rfl
    unfold patchedInitContainer origInitContainer
    rw [if_pos hc1, if_neg (by decide)]
    rfl
  · intro m
    cases m <;> rfl
  · intro k
    rfl

/-- Witness for C9: a dirty anchor (stale stamp 7, leftover children) is
cleaned before the first mount, and a second mount on the result leaves
exactly the second instance's layer. -/
theorem mapMount_spec_witness :
    patchedInitContainer 1 ⟨some 7, [7, 9]⟩ = origInitContainer 1 ⟨none, []⟩ ∧
    patchedInitContainer 2 ⟨some 1, [1]⟩ = .ok ⟨some 2, [2]⟩ ∧
    unmountCleanup (some 2) = (some 2, none) :=
  ⟨mapMount_spec.1 ⟨some 7, [7, 9]⟩ 1 rfl,
   mapMount_spec.2.1 ⟨none, []⟩ ⟨some 1, [1]⟩ 1 2 rfl,
   by
    have h1 := mapMount_spec.2.2.1 (some 2)
    have h2 := mapMount_spec.2.2.2 2
    have hpair : unmountCleanup (some 2)
        = ((unmountCleanup (some 2)).1, (unmountCleanup (some 2)).2) := rfl
    rw [hpair, h1, h2]⟩

end DigitalSurveyor
